import Mathlib

set_option maxRecDepth 10000

/-!
Formal model of the NC-ASK backend RAG pipeline core.

Shallow embedding conventions:
- Python `str` values are modelled as `List Char` (named `PyStr`);
- Python floats are modelled as exact numbers: rationals where the code only
  carries them around, reals where the code computes with square roots
  (cosine similarity in the in-memory vector store);
- Python code that may raise is modelled as `Except PyStr`-valued functions,
  the error value standing for the exception object;
- Python dictionaries with string keys are association lists.

Source files embedded: `backend/services/rag_pipeline.py`,
`backend/services/crisis_detection.py`, `backend/services/retrieval.py`,
`backend/services/vector_store.py`.
-/

namespace NCAsk

/-- Python str modelled as a list of characters. -/
abbrev PyStr := List Char

/-- Python `str.lower()` (`query.lower()` in `detect_crisis`). -/
def pyLower (s : PyStr) : PyStr := s.map Char.toLower

/-- Python `str.strip()` on the left: drop leading whitespace. -/
def dropLeadWs (s : PyStr) : PyStr := s.dropWhile Char.isWhitespace

/-- Python `str.strip()`: drop leading and trailing whitespace. -/
def pyStrip (s : PyStr) : PyStr :=
  ((s.dropWhile Char.isWhitespace).reverse.dropWhile Char.isWhitespace).reverse

/-- Single pass of Python `str.split()` with no separator: walks the string,
holding the current in-progress word reversed in the accumulator, emitting a
word at each whitespace boundary and at the end. -/
def pyWordsGo : PyStr → PyStr → List PyStr
  | [], acc => if acc = [] then [] else [acc.reverse]
  | c :: cs, acc =>
    if c.isWhitespace then
      if acc = [] then pyWordsGo cs [] else acc.reverse :: pyWordsGo cs []
    else pyWordsGo cs (c :: acc)

/-- Python `str.split()` with no separator: maximal runs of non-whitespace
characters, with all whitespace discarded. -/
def pyWords (s : PyStr) : List PyStr := pyWordsGo s []

/-- Python `sep.join(parts)`. -/
def joinSep (sep : PyStr) : List PyStr → PyStr
  | [] => []
  | [x] => x
  | x :: y :: xs => x ++ sep ++ joinSep sep (y :: xs)

/-- Python `s.replace(c, Empty)`: delete every occurrence of one character. -/
def removeChar (c : Char) (s : PyStr) : PyStr := s.filter (fun d => d ≠ c)

/-! ## Crisis detection (`backend/services/crisis_detection.py`) -/

/-- Source CRITICAL_KEYWORDS list. -/
def CRITICAL_KEYWORDS : List PyStr :=
  [("suicide").data, ("suicidal").data, ("kill myself").data, ("end my life").data,
   ("want to die").data, ("going to die").data, ("better off dead").data,
   ("no reason to live").data, ("plan to hurt myself").data, ("plan to kill").data]

/-- Source HIGH_PRIORITY_KEYWORDS list. -/
def HIGH_PRIORITY_KEYWORDS : List PyStr :=
  [("self harm").data, ("self-harm").data, ("cut myself").data, ("hurt myself").data,
   ("overdose").data, ("pills").data, ("harm to others").data, ("hurt someone").data,
   ("abuse").data, ("neglect").data, ("violence").data]

/-- ASCII apostrophe character (code point 39), written via `Char.ofNat`. -/
def apos : Char := Char.ofNat 39

/-- Source MODERATE_KEYWORDS list; the second entry is the source keyword
containing an apostrophe, built explicitly. -/
def MODERATE_KEYWORDS : List PyStr :=
  [("hopeless").data, ("can").data ++ [apos] ++ ("t go on").data,
   ("unbearable").data, ("desperate").data,
   ("crisis").data, ("emergency").data, ("help me please").data]

/-- Python substring containment `needle in haystack`, as a Bool. -/
def pyContains (haystack needle : PyStr) : Bool := decide (needle <:+: haystack)

/-- KeywordCrisisDetector.detect_crisis with the default keyword lists.
Matches each tier in order, collecting within a tier all matching keywords in
list order (the for-loop append), and short-circuits at the first non-empty
tier. -/
def detect_crisis (query : PyStr) : Bool × PyStr × List PyStr :=
  let query_lower := pyLower query
  let critical := CRITICAL_KEYWORDS.filter (fun k => pyContains query_lower k)
  if critical ≠ [] then (true, ("critical").data, critical)
  else
    let high := HIGH_PRIORITY_KEYWORDS.filter (fun k => pyContains query_lower k)
    if high ≠ [] then (true, ("high").data, high)
    else
      let moderate := MODERATE_KEYWORDS.filter (fun k => pyContains query_lower k)
      if moderate ≠ [] then (true, ("moderate").data, moderate)
      else (false, ("none").data, [])

/-- Crisis resource record (`get_crisis_resources` entries). -/
structure Resource where
  name : PyStr
  phone : PyStr
  description : PyStr
  url : Option PyStr
  priority : Nat
deriving DecidableEq, Repr

/-- KeywordCrisisDetector.get_crisis_resources. -/
def get_crisis_resources : List Resource :=
  [{ name := ("988 Suicide & Crisis Lifeline").data, phone := ("988").data,
     description := ("24/7 free and confidential support for people in distress").data,
     url := some ("https://988lifeline.org/").data, priority := 1 },
   { name := ("Crisis Text Line").data, phone := ("Text HOME to 741741").data,
     description := ("24/7 text-based crisis support").data,
     url := some ("https://www.crisistextline.org/").data, priority := 2 },
   { name := ("NC Hope4NC Helpline").data, phone := ("1-855-587-3463").data,
     description := ("North Carolina").data ++ [apos] ++
       ("s free 24/7 crisis and emotional support line").data,
     url := some ("https://www.mhanc.org/hope4nc/").data, priority := 3 },
   { name := ("Emergency Services").data, phone := ("911").data,
     description := ("For immediate life-threatening emergencies").data,
     url := none, priority := 4 }]

/-- Fixed boilerplate of `format_crisis_response` (the triple-quoted literal,
including its leading newline and trailing separator line). -/
def CRISIS_MESSAGE : PyStr :=
  ("\n⚠️ **IMPORTANT CRISIS RESOURCES** ⚠️\n\nIf you or someone you know is in crisis or considering self-harm, please reach out for immediate help:\n\n• **988 Suicide & Crisis Lifeline**: Call or text 988 (available 24/7)\n• **Crisis Text Line**: Text HOME to 741741\n• **NC Hope4NC Helpline**: 1-855-587-3463 (24/7 support)\n• **Emergency**: Call 911 for immediate life-threatening situations\n\nYou are not alone. Trained counselors are available right now to help.\n\n---\n").data

/-- KeywordCrisisDetector.format_crisis_response: boilerplate, then the
standard response beneath a newline when the response is truthy (a non-empty
string; None is modelled by `none`). The severity argument is accepted but
unused, as in the source. -/
def format_crisis_response (_severity : PyStr) (standard_response : Option PyStr) : PyStr :=
  CRISIS_MESSAGE ++
    (match standard_response with
     | some r => if r ≠ [] then ('\n') :: r else []
     | none => [])

/-! ## RAGPipeline validation and sanitization (`backend/services/rag_pipeline.py`) -/

/-- RAGPipeline.validate_query: returns (is_valid, error_message). The guard
`not query or not query.strip()` is empty-or-whitespace-only; the length guard
compares against max_length. -/
def validate_query (query : PyStr) (max_length : Nat := 500) : Bool × PyStr :=
  if query = [] ∨ pyStrip query = [] then
    (false, ("Query cannot be empty").data)
  else if max_length < query.length then
    (false, ("Query exceeds maximum length of ").data ++ (Nat.repr max_length).data ++
      (" characters").data)
  else (true, [])

/-- List of the four characters removed by `sanitize_query`. -/
def dangerous_chars : List Char := ['<', '>', '{', '}']

/-- RAGPipeline.sanitize_query: first `" ".join(query.split())`, then delete
each dangerous character in turn, then `strip()`. -/
def sanitize_query (query : PyStr) : PyStr :=
  let q1 := joinSep [' '] (pyWords query)
  let q2 := dangerous_chars.foldl (fun s c => removeChar c s) q1
  pyStrip q2

/-! ## Pipeline data model -/

/-- RetrievalResult dataclass (`backend/services/interfaces.py`). The float
similarity score is modelled as a rational; the pipeline and the context
formatter never compute with it. -/
structure RetrievalResult where
  chunk_id : Nat
  chunk_text : PyStr
  document_id : Nat
  similarity_score : ℚ
  metadata : List (PyStr × PyStr)
  document_title : Option PyStr := none
  source_url : Option PyStr := none
deriving DecidableEq, Repr

/-- Citation dictionary produced by `extract_citations`. -/
structure Citation where
  title : PyStr
  url : Option PyStr
  relevance_score : ℚ
deriving DecidableEq, Repr

/-- Values stored in the result dictionary of `process_query`. -/
inductive Value where
  | vStr : PyStr → Value
  | vBool : Bool → Value
  | vCitations : List Citation → Value
  | vOptStr : Option PyStr → Value
  | vResources : List Resource → Value
deriving DecidableEq, Repr

/-- Python dict with string keys, as an association list in insertion order. -/
abbrev Dict := List (String × Value)

/-- View type literal of `process_query`. -/
inductive ViewType where
  | provider
  | patient
deriving DecidableEq, Repr

/-- Injected services of RAGPipeline (crisis detector, retrieval service and
LLM provider), each call modelled as possibly raising (`Except PyStr`). -/
structure Services where
  detectCrisis : PyStr → Except PyStr (Bool × PyStr × List PyStr)
  retrieveSimilarChunks : PyStr → Except PyStr (List RetrievalResult)
  formatContextForLLM : List RetrievalResult → Except PyStr PyStr
  generateResponse : PyStr → PyStr → ViewType → Except PyStr PyStr
  addDisclaimers : PyStr → PyStr → Except PyStr PyStr
  formatCrisisResponse : PyStr → PyStr → Except PyStr PyStr
  getCrisisResources : Except PyStr (List Resource)
  extractCitations : List RetrievalResult → Except PyStr (List Citation)

/-- Dictionary returned on validation failure (step 1 early return). -/
def validationFailureDict (error_msg : PyStr) : Dict :=
  [(("response"), Value.vStr error_msg),
   (("citations"), Value.vCitations []),
   (("crisis_detected"), Value.vBool false),
   (("error"), Value.vBool true)]

/-- Fallback response text of the outer exception handler. -/
def FALLBACK_RESPONSE : PyStr :=
  ("I apologize, but I encountered an error processing your question. Please try again or contact NC Ask directly at 1-800-442-2762.").data

/-- Dictionary returned by the outer exception handler. -/
def exceptionDict (e : PyStr) : Dict :=
  [(("response"), Value.vStr FALLBACK_RESPONSE),
   (("citations"), Value.vCitations []),
   (("crisis_detected"), Value.vBool false),
   (("error"), Value.vBool true),
   (("error_message"), Value.vStr e)]

/-- Dictionary returned by the success path (step 10). -/
def successDict (response : PyStr) (citations : List Citation) (is_crisis : Bool)
    (severity : PyStr) (crisis_resources : List Resource) : Dict :=
  [(("response"), Value.vStr response),
   (("citations"), Value.vCitations citations),
   (("crisis_detected"), Value.vBool is_crisis),
   (("crisis_severity"), Value.vOptStr (if is_crisis then some severity else none)),
   (("crisis_resources"), Value.vResources crisis_resources),
   (("error"), Value.vBool false)]

/-- Body of the `try` block of RAGPipeline.process_query: steps 1 to 10 in
source order, each service call propagating its exception. The step 9
resource lookup `get_crisis_resources() if is_crisis else []` only calls the
detector when a crisis was detected. -/
def processQueryTry (svc : Services) (query : PyStr) (view_type : ViewType) :
    Except PyStr Dict :=
  let v := validate_query query
  if v.1 = false then Except.ok (validationFailureDict v.2)
  else
    let sanitized_query := sanitize_query query
    match svc.detectCrisis sanitized_query with
    | Except.error e => Except.error e
    | Except.ok (is_crisis, severity, _crisis_keywords) =>
      match svc.retrieveSimilarChunks sanitized_query with
      | Except.error e => Except.error e
      | Except.ok retrieval_results =>
        match svc.formatContextForLLM retrieval_results with
        | Except.error e => Except.error e
        | Except.ok context =>
          match svc.generateResponse sanitized_query context view_type with
          | Except.error e => Except.error e
          | Except.ok response0 =>
            match svc.addDisclaimers response0 sanitized_query with
            | Except.error e => Except.error e
            | Except.ok response1 =>
              let responseE :=
                if is_crisis then svc.formatCrisisResponse severity response1
                else Except.ok response1
              match responseE with
              | Except.error e => Except.error e
              | Except.ok response =>
                match svc.extractCitations retrieval_results with
                | Except.error e => Except.error e
                | Except.ok citations =>
                  let resourcesE :=
                    if is_crisis then svc.getCrisisResources else Except.ok []
                  match resourcesE with
                  | Except.error e => Except.error e
                  | Except.ok crisis_resources =>
                    Except.ok (successDict response citations is_crisis severity
                      crisis_resources)

/-- RAGPipeline.process_query: the try block, with the outer `except` handler
converting any escaped exception into the fallback dictionary. The session
identifier is accepted and used only for logging in the source. -/
def process_query (svc : Services) (query : PyStr) (_session_id : Option PyStr)
    (view_type : ViewType) : Dict :=
  match processQueryTry svc query view_type with
  | Except.ok d => d
  | Except.error e => exceptionDict e

/-! ## DocumentRetrieval.format_context_for_llm (`backend/services/retrieval.py`) -/

/-- Source expression `result.document_title or f"Document {result.document_id}"`:
Python treats None and the empty string as falsy. -/
def sourceInfo (r : RetrievalResult) : PyStr :=
  match r.document_title with
  | some t => if t ≠ [] then t else ("Document ").data ++ (Nat.repr r.document_id).data
  | none => ("Document ").data ++ (Nat.repr r.document_id).data

/-- Rendering of one chunk inside the loop of `format_context_for_llm`:
`f"[Source {i}: {source_info}]\n{chunk_text}\n"` with the chunk text stripped. -/
def formattedChunk (i : Nat) (r : RetrievalResult) : PyStr :=
  ("[Source ").data ++ (Nat.repr i).data ++ (": ").data ++ sourceInfo r ++
    ("]\n").data ++ pyStrip r.chunk_text ++ ("\n").data

/-- Loop of `format_context_for_llm`: appends rendered chunks while the running
character total stays within budget, and breaks (discarding the rest) as soon
as one would push it over. -/
def contextParts (max_chars : Nat) : Nat → Nat → List RetrievalResult → List PyStr
  | _, _, [] => []
  | i, total_chars, r :: rest =>
    let fc := formattedChunk i r
    if max_chars < total_chars + fc.length then []
    else fc :: contextParts max_chars (i + 1) (total_chars + fc.length) rest

/-- DocumentRetrieval.format_context_for_llm with an explicit max_tokens
argument (the None default pulls the same settings value at the call site). -/
def format_context_for_llm (retrieval_results : List RetrievalResult)
    (max_tokens : Nat) : PyStr :=
  if retrieval_results = [] then []
  else joinSep (("\n---\n").data) (contextParts (max_tokens * 4) 1 0 retrieval_results)

/-! ## InMemoryVectorStore (`backend/services/vector_store.py`)

Chunk dictionaries handed to `store_document_chunks` are modelled as a payload
structure; the store keeps each payload together with its assigned id, and a
separate `next_id` counter, exactly as the source object state. Embedding
vectors are lists of reals (floats modelled exactly); a payload without an
embedding key is modelled by `none`. -/

structure ChunkPayload where
  chunk_text : PyStr
  document_id : Nat
  embedding : Option (List ℝ)
  metadata : List (PyStr × PyStr)
  document_title : Option PyStr := none
  source_url : Option PyStr := none

structure StoredChunk where
  id : Nat
  payload : ChunkPayload

/-- Mutable state of an InMemoryVectorStore instance. -/
structure VSState where
  chunks : List StoredChunk
  next_id : Nat

/-- State created by `InMemoryVectorStore.__init__`. -/
def initVSState : VSState := { chunks := [], next_id := 1 }

/-- InMemoryVectorStore.store_document_chunks: assigns `next_id` to each chunk
in order, incrementing the counter, appending the stored copy, and returns the
list of assigned ids with the updated state. -/
def store_document_chunks : VSState → List ChunkPayload → List Nat × VSState
  | s, [] => ([], s)
  | s, c :: cs =>
    let chunk_id := s.next_id
    let s2 : VSState :=
      { chunks := s.chunks ++ [{ id := chunk_id, payload := c }],
        next_id := s.next_id + 1 }
    let rest := store_document_chunks s2 cs
    (chunk_id :: rest.1, rest.2)

/-- InMemoryVectorStore.clear: drops all chunks and resets the counter to 1. -/
def vsClear (_s : VSState) : VSState := { chunks := [], next_id := 1 }

/-- One operation against the in-memory store, for reasoning about sequences
of store and clear calls. -/
inductive VSOp where
  | storeOp : List ChunkPayload → VSOp
  | clearOp : VSOp

/-- Run a sequence of operations, collecting the id list returned by each
store call. -/
def runVSOps : VSState → List VSOp → List (List Nat) × VSState
  | s, [] => ([], s)
  | s, VSOp.storeOp cs :: ops =>
    let r := store_document_chunks s cs
    let rest := runVSOps r.2 ops
    (r.1 :: rest.1, rest.2)
  | s, VSOp.clearOp :: ops => runVSOps (vsClear s) ops

/-- Discriminator for clear operations (payloads are never inspected). -/
def VSOp.isClear : VSOp → Bool
  | VSOp.clearOp => true
  | VSOp.storeOp _ => false

/-- Sample chunk payload used in concrete store traces. -/
def samplePayload : ChunkPayload :=
  { chunk_text := ("test").data, document_id := 1, embedding := none, metadata := [] }

/-- Sample stored chunk with a one-dimensional embedding. -/
def sampleChunkR : StoredChunk :=
  { id := 1,
    payload := { chunk_text := ("t").data, document_id := 1,
                 embedding := some [1], metadata := [] } }

/-- Sample store state holding one embedded chunk. -/
def sampleVSState : VSState := { chunks := [sampleChunkR], next_id := 2 }

/-- Result record produced by `search_similar` (a RetrievalResult whose
similarity score is a real number, since the store computes it). -/
structure VSResult where
  chunk_id : Nat
  chunk_text : PyStr
  document_id : Nat
  similarity_score : ℝ
  metadata : List (PyStr × PyStr)
  document_title : Option PyStr
  source_url : Option PyStr

/-- Conversion of a stored chunk and its similarity into a result record, as
in the loop building RetrievalResult objects. -/
def mkVSResult (c : StoredChunk) (similarity : ℝ) : VSResult :=
  { chunk_id := c.id, chunk_text := c.payload.chunk_text,
    document_id := c.payload.document_id, similarity_score := similarity,
    metadata := c.payload.metadata, document_title := c.payload.document_title,
    source_url := c.payload.source_url }

/-- Dot product `np.dot` of two equal-length vectors. -/
def vdot (u v : List ℝ) : ℝ := (List.zipWith (fun a b => a * b) u v).sum

/-- Euclidean norm `np.linalg.norm`. -/
noncomputable def vnorm (v : List ℝ) : ℝ := Real.sqrt (vdot v v)

section
open Classical

/-- One iteration of the similarity loop of `search_similar`: skip a chunk
without an embedding, skip it when its norm product with the query is zero,
and keep the pair (chunk, similarity) when the similarity reaches the
threshold. -/
noncomputable def simCandidate (query_embedding : List ℝ) (threshold : ℝ)
    (c : StoredChunk) : Option (StoredChunk × ℝ) :=
  match c.payload.embedding with
  | none => none
  | some e =>
    let norm_product := vnorm query_embedding * vnorm e
    if norm_product = 0 then none
    else
      let similarity := vdot query_embedding e / norm_product
      if threshold ≤ similarity then some (c, similarity) else none

/-- Similarity-computing loop of `search_similar` over the stored chunks. -/
noncomputable def simCandidates (chunks : List StoredChunk) (query_embedding : List ℝ)
    (threshold : ℝ) : List (StoredChunk × ℝ) :=
  chunks.filterMap (simCandidate query_embedding threshold)

/-- Descending order on similarity, the comparison of
`similarities.sort(key=lambda x: x[1], reverse=True)`. -/
def simDesc (a b : StoredChunk × ℝ) : Prop := b.2 ≤ a.2

/-- InMemoryVectorStore.search_similar: early return on an empty store, the
similarity loop, a stable descending sort (Python list.sort is stable;
`List.insertionSort` with `simDesc` keeps earlier elements first among equal
keys), the `top_k` cut, and the conversion to result records. -/
noncomputable def search_similar (s : VSState) (query_embedding : List ℝ)
    (top_k : Nat) (threshold : ℝ) : List VSResult :=
  if s.chunks = [] then []
  else
    ((List.insertionSort simDesc
        (simCandidates s.chunks query_embedding threshold)).take top_k).map
      (fun p => mkVSResult p.1 p.2)

end

/-! ## Pipeline wiring with the concrete keyword crisis detector -/

/-- Abstract downstream services (retrieval service and LLM provider) injected
into the pipeline alongside the concrete KeywordCrisisDetector. -/
structure DownstreamStubs where
  retrieve : PyStr → Except PyStr (List RetrievalResult)
  formatCtx : List RetrievalResult → Except PyStr PyStr
  generate : PyStr → PyStr → ViewType → Except PyStr PyStr
  disclaim : PyStr → PyStr → Except PyStr PyStr
  cites : List RetrievalResult → Except PyStr (List Citation)

/-- Services built from the concrete KeywordCrisisDetector (whose methods are
pure and never raise) and abstract retrieval/LLM stubs. -/
def mkKeywordServices (st : DownstreamStubs) : Services :=
  { detectCrisis := fun q => Except.ok (detect_crisis q),
    retrieveSimilarChunks := st.retrieve,
    formatContextForLLM := st.formatCtx,
    generateResponse := st.generate,
    addDisclaimers := st.disclaim,
    formatCrisisResponse := fun sev r => Except.ok (format_crisis_response sev (some r)),
    getCrisisResources := Except.ok get_crisis_resources,
    extractCitations := st.cites }

/-- Keyword list of the tier named by a severity string; used to state tier
coherence of `detect_crisis`. -/
def tierKeywords (severity : PyStr) : List PyStr :=
  if severity = ("critical").data then CRITICAL_KEYWORDS
  else if severity = ("high").data then HIGH_PRIORITY_KEYWORDS
  else if severity = ("moderate").data then MODERATE_KEYWORDS
  else []

/-- Concrete downstream stubs that always succeed (graceful services). -/
def okStubs : DownstreamStubs :=
  { retrieve := fun _ => Except.ok [],
    formatCtx := fun _ => Except.ok [],
    generate := fun _ _ _ => Except.ok (("The answer.").data),
    disclaim := fun r _ => Except.ok r,
    cites := fun _ => Except.ok [] }

/-- Concrete downstream stubs whose retrieval stage raises. -/
def failStubs : DownstreamStubs :=
  { okStubs with retrieve := fun _ => Except.error (("retrieval backend down").data) }

/-- Pipeline services with the keyword detector and succeeding stubs. -/
def svcOk : Services := mkKeywordServices okStubs

/-- Pipeline services with the keyword detector and a raising retrieval stage. -/
def svcFail : Services := mkKeywordServices failStubs

/-! ## Theorems about crisis detection (claims C4 and C9) -/

theorem filter_ne_nil_of_mem {p : PyStr → Bool} {k : PyStr} {l : List PyStr}
    (hk : k ∈ l) (hp : p k = true) : l.filter p ≠ [] := by
  intro h
  have : k ∈ l.filter p := List.mem_filter.mpr ⟨hk, hp⟩
  rw [h] at this
  exact List.not_mem_nil k this

/-- C4: a query containing any critical-tier keyword (case-insensitively, as a
substring) is classified critical with exactly the critical keywords that
occur, regardless of other tiers; and a query containing no keyword of any
tier yields (false, none, []). -/
theorem c4_critical_wins_and_none (query : PyStr) :
    ((∃ k ∈ CRITICAL_KEYWORDS, k <:+: pyLower query) →
      detect_crisis query =
        (true, ("critical").data,
         CRITICAL_KEYWORDS.filter (fun k => pyContains (pyLower query) k))) ∧
    ((∀ k ∈ CRITICAL_KEYWORDS, ¬ k <:+: pyLower query) →
     (∀ k ∈ HIGH_PRIORITY_KEYWORDS, ¬ k <:+: pyLower query) →
     (∀ k ∈ MODERATE_KEYWORDS, ¬ k <:+: pyLower query) →
      detect_crisis query = (false, ("none").data, [])) := by
  constructor
  · rintro ⟨k, hk, hinf⟩
    have hne : CRITICAL_KEYWORDS.filter (fun k => pyContains (pyLower query) k) ≠ [] :=
      filter_ne_nil_of_mem hk (by simpa [pyContains] using hinf)
    simp only [detect_crisis]
    rw [if_pos hne]
  · intro h1 h2 h3
    have e1 : CRITICAL_KEYWORDS.filter (fun k => pyContains (pyLower query) k) = [] := by
      rw [List.filter_eq_nil_iff]
      intro k hk
      simpa [pyContains] using h1 k hk
    have e2 : HIGH_PRIORITY_KEYWORDS.filter (fun k => pyContains (pyLower query) k) = [] := by
      rw [List.filter_eq_nil_iff]
      intro k hk
      simpa [pyContains] using h2 k hk
    have e3 : MODERATE_KEYWORDS.filter (fun k => pyContains (pyLower query) k) = [] := by
      rw [List.filter_eq_nil_iff]
      intro k hk
      simpa [pyContains] using h3 k hk
    simp [detect_crisis, e1, e2, e3]

/-- Witness for C4: a query holding both a critical and a moderate keyword is
classified critical with the critical matches only, and a harmless query maps
to (false, none, []). -/
theorem c4_witness :
    detect_crisis (("I am hopeless and think about suicide").data) =
      (true, ("critical").data, [("suicide").data]) ∧
    detect_crisis (("What is an IEP?").data) = (false, ("none").data, []) := by
  constructor
  · have h := (c4_critical_wins_and_none (("I am hopeless and think about suicide").data)).1
      (by decide)
    rw [h]
    decide
  · exact (c4_critical_wins_and_none (("What is an IEP?").data)).2
      (by decide) (by decide) (by decide)

/-- C9: the triple returned by `detect_crisis` is coherent: the flag holds
exactly when the severity is not none, exactly when some keyword matched, and
the matched keywords are exactly the matching keywords of the single tier
named by the severity. -/
theorem c9_detect_crisis_coherent (query : PyStr) :
    ((detect_crisis query).1 = true ↔ (detect_crisis query).2.1 ≠ ("none").data) ∧
    ((detect_crisis query).1 = true ↔ (detect_crisis query).2.2 ≠ []) ∧
    (detect_crisis query).2.2 =
      (tierKeywords (detect_crisis query).2.1).filter
        (fun k => pyContains (pyLower query) k) := by
  simp only [detect_crisis]
  split_ifs with h1 h2 h3
  · exact ⟨by simp, by simpa using h1, by simp [tierKeywords]⟩
  · exact ⟨by simp, by simpa using h2, by simp [tierKeywords]⟩
  · exact ⟨by simp, by simpa using h3, by simp [tierKeywords]⟩
  · exact ⟨by simp, by simp, by simp [tierKeywords]⟩

/-! ## Theorems about sanitization (claim C8) -/

theorem pyWordsGo_append_nonws (t : PyStr) :
    ∀ (acc l : PyStr), (∀ c ∈ t, c.isWhitespace = false) →
      pyWordsGo (t ++ l) acc = pyWordsGo l (t.reverse ++ acc) := by
  induction t with
  | nil => intro acc l _; simp
  | cons c cs ih =>
    intro acc l h
    have hc : c.isWhitespace = false := h c (List.mem_cons_self c cs)
    have step : pyWordsGo ((c :: cs) ++ l) acc = pyWordsGo (cs ++ l) (c :: acc) := by
      simp [pyWordsGo, hc]
    rw [step, ih (c :: acc) l (fun d hd => h d (List.mem_cons_of_mem c hd))]
    simp

theorem pyWordsGo_word_boundary (w l : PyStr) (hw : w ≠ [])
    (hnws : ∀ c ∈ w, c.isWhitespace = false)
    (hl : l = [] ∨ ∃ d ds, l = d :: ds ∧ d.isWhitespace = true) :
    pyWordsGo (w ++ l) [] = w :: pyWordsGo l [] := by
  rw [pyWordsGo_append_nonws w [] l hnws]
  rcases hl with rfl | ⟨d, ds, rfl, hd⟩
  · simp [pyWordsGo, hw]
  · simp [pyWordsGo, hd, hw]

theorem pyWords_joinSep (ws : List PyStr)
    (h : ∀ w ∈ ws, w ≠ [] ∧ ∀ c ∈ w, c.isWhitespace = false) :
    pyWords (joinSep [' '] ws) = ws := by
  induction ws with
  | nil => simp [pyWords, joinSep, pyWordsGo]
  | cons w rest ih =>
    rcases h w (List.mem_cons_self w rest) with ⟨hw, hnws⟩
    cases rest with
    | nil =>
      have hj : joinSep [' '] [w] = w ++ [] := by simp [joinSep]
      rw [pyWords, hj, pyWordsGo_word_boundary w [] hw hnws (Or.inl rfl)]
      simp [pyWordsGo]
    | cons y ys =>
      have hj : joinSep [' '] (w :: y :: ys) = w ++ (' ' :: joinSep [' '] (y :: ys)) := by
        simp [joinSep]
      rw [pyWords, hj,
        pyWordsGo_word_boundary w _ hw hnws (Or.inr ⟨' ', _, rfl, by decide⟩)]
      have hskip : pyWordsGo (' ' :: joinSep [' '] (y :: ys)) [] =
          pyWordsGo (joinSep [' '] (y :: ys)) [] := by
        simp [pyWordsGo]
      rw [hskip]
      have ihr := ih (fun v hv => h v (List.mem_cons_of_mem w hv))
      rw [pyWords] at ihr
      rw [ihr]

theorem pyWordsGo_sound : ∀ (l acc : PyStr), (∀ c ∈ acc, c.isWhitespace = false) →
    ∀ w ∈ pyWordsGo l acc,
      w ≠ [] ∧ ∀ c ∈ w, c.isWhitespace = false ∧ (c ∈ l ∨ c ∈ acc) := by
  intro l
  induction l with
  | nil =>
    intro acc hacc w hw
    by_cases h : acc = []
    · simp [pyWordsGo, h] at hw
    · simp only [pyWordsGo, if_neg h, List.mem_singleton] at hw
      subst hw
      refine ⟨by simpa using h, fun c hc => ?_⟩
      have hc0 : c ∈ acc := by simpa using hc
      exact ⟨hacc c hc0, Or.inr hc0⟩
  | cons a cs ih =>
    intro acc hacc w hw
    by_cases ha : a.isWhitespace = true
    · by_cases h : acc = []
      · simp only [pyWordsGo, ha, if_pos rfl, if_pos h, h] at hw
        obtain ⟨hne, hall⟩ := ih [] (by simp) w (by simpa using hw)
        refine ⟨hne, fun c hc => ⟨(hall c hc).1, ?_⟩⟩
        rcases (hall c hc).2 with h1 | h1
        · exact Or.inl (List.mem_cons_of_mem a h1)
        · simp at h1
      · simp only [pyWordsGo, ha, if_pos rfl, if_neg h] at hw
        cases hw with
        | head =>
          refine ⟨by simpa using h, fun c hc => ?_⟩
          have hc0 : c ∈ acc := by simpa using hc
          exact ⟨hacc c hc0, Or.inr hc0⟩
        | tail _ hw =>
          obtain ⟨hne, hall⟩ := ih [] (by simp) w hw
          refine ⟨hne, fun c hc => ⟨(hall c hc).1, ?_⟩⟩
          rcases (hall c hc).2 with h1 | h1
          · exact Or.inl (List.mem_cons_of_mem a h1)
          · simp at h1
    · have ha2 : a.isWhitespace = false := by simpa using ha
      simp only [pyWordsGo, ha2] at hw
      have haccx : ∀ c ∈ a :: acc, c.isWhitespace = false := by
        intro c hc
        rcases List.mem_cons.mp hc with rfl | hc
        · exact ha2
        · exact hacc c hc
      obtain ⟨hne, hall⟩ := ih (a :: acc) haccx w (by simpa using hw)
      refine ⟨hne, fun c hc => ⟨(hall c hc).1, ?_⟩⟩
      rcases (hall c hc).2 with h1 | h1
      · exact Or.inl (List.mem_cons_of_mem a h1)
      · rcases List.mem_cons.mp h1 with rfl | h1
        · exact Or.inl (List.mem_cons_self c cs)
        · exact Or.inr h1

theorem joinSep_chars : ∀ (ws : List PyStr) (c : Char), c ∈ joinSep [' '] ws →
    c = ' ' ∨ ∃ w, w ∈ ws ∧ c ∈ w := by
  intro ws
  induction ws with
  | nil => intro c hc; simp [joinSep] at hc
  | cons x xs ih =>
    intro c hc
    cases xs with
    | nil => exact Or.inr ⟨x, List.mem_cons_self x [], by simpa [joinSep] using hc⟩
    | cons y ys =>
      simp only [joinSep] at hc
      rcases List.mem_append.mp hc with h1 | h1
      · rcases List.mem_append.mp h1 with h2 | h2
        · exact Or.inr ⟨x, List.mem_cons_self x (y :: ys), h2⟩
        · left; simpa using h2
      · rcases ih c h1 with h2 | ⟨w, hw, hcw⟩
        · exact Or.inl h2
        · exact Or.inr ⟨w, List.mem_cons_of_mem x hw, hcw⟩

theorem removeChar_eq_self {c : Char} {l : PyStr} (h : ∀ d ∈ l, d ≠ c) :
    removeChar c l = l :=
  List.filter_eq_self.mpr (fun d hd => by simpa using h d hd)

theorem removeDangerous_eq_self {l : PyStr} (h : ∀ d ∈ l, d ∉ dangerous_chars) :
    dangerous_chars.foldl (fun s c => removeChar c s) l = l := by
  have hd : ∀ d ∈ l, d ≠ '<' ∧ d ≠ '>' ∧ d ≠ '{' ∧ d ≠ '}' := by
    intro d hdl
    have := h d hdl
    simp [dangerous_chars] at this
    exact this
  have e1 : removeChar '<' l = l := removeChar_eq_self (fun d h0 => (hd d h0).1)
  have e2 : removeChar '>' l = l := removeChar_eq_self (fun d h0 => (hd d h0).2.1)
  have e3 : removeChar '{' l = l := removeChar_eq_self (fun d h0 => (hd d h0).2.2.1)
  have e4 : removeChar '}' l = l := removeChar_eq_self (fun d h0 => (hd d h0).2.2.2)
  simp only [dangerous_chars, List.foldl]
  rw [e1, e2, e3, e4]

theorem dropWhile_ws_eq_self {l : PyStr}
    (h : l = [] ∨ ∃ c cs, l = c :: cs ∧ c.isWhitespace = false) :
    l.dropWhile Char.isWhitespace = l := by
  rcases h with rfl | ⟨c, cs, rfl, hc⟩
  · rfl
  · simp [List.dropWhile, hc]

theorem pyStrip_eq_self {l : PyStr}
    (h1 : l.dropWhile Char.isWhitespace = l)
    (h2 : l.reverse.dropWhile Char.isWhitespace = l.reverse) :
    pyStrip l = l := by
  unfold pyStrip
  rw [h1, h2, List.reverse_reverse]

theorem joinSep_cons_ex (w : PyStr) (rest : List PyStr) :
    ∃ t, joinSep [' '] (w :: rest) = w ++ t := by
  cases rest with
  | nil => exact ⟨[], by simp [joinSep]⟩
  | cons y ys => exact ⟨' ' :: joinSep [' '] (y :: ys), by simp [joinSep]⟩

theorem joinSep_head (ws : List PyStr)
    (h : ∀ w ∈ ws, w ≠ [] ∧ ∀ c ∈ w, c.isWhitespace = false) (hne : ws ≠ []) :
    ∃ c cs, joinSep [' '] ws = c :: cs ∧ c.isWhitespace = false := by
  cases ws with
  | nil => exact absurd rfl hne
  | cons w rest =>
    rcases h w (List.mem_cons_self w rest) with ⟨hw, hnws⟩
    obtain ⟨t, ht⟩ := joinSep_cons_ex w rest
    cases w with
    | nil => exact absurd rfl hw
    | cons c cs =>
      exact ⟨c, cs ++ t, by simp [ht], hnws c (List.mem_cons_self c cs)⟩

theorem joinSep_rev_head (ws : List PyStr)
    (h : ∀ w ∈ ws, w ≠ [] ∧ ∀ c ∈ w, c.isWhitespace = false) (hne : ws ≠ []) :
    ∃ c cs, (joinSep [' '] ws).reverse = c :: cs ∧ c.isWhitespace = false := by
  induction ws with
  | nil => exact absurd rfl hne
  | cons w rest ih =>
    rcases h w (List.mem_cons_self w rest) with ⟨hw, hnws⟩
    cases rest with
    | nil =>
      cases hr : w.reverse with
      | nil => exact absurd (by simpa using hr) hw
      | cons c cs =>
        refine ⟨c, cs, by simpa [joinSep] using hr, ?_⟩
        have hcw : c ∈ w := by
          have : c ∈ w.reverse := by rw [hr]; exact List.mem_cons_self c cs
          simpa using this
        exact hnws c hcw
    | cons y ys =>
      obtain ⟨c, cs, hrev, hc⟩ :=
        ih (fun v hv => h v (List.mem_cons_of_mem w hv)) (by simp)
      refine ⟨c, cs ++ [' '] ++ w.reverse, ?_, hc⟩
      have hj : joinSep [' '] (w :: y :: ys) = w ++ (' ' :: joinSep [' '] (y :: ys)) := by
        simp [joinSep]
      rw [hj, List.reverse_append, List.reverse_cons, hrev]
      simp

theorem pyStrip_joinSep (ws : List PyStr)
    (h : ∀ w ∈ ws, w ≠ [] ∧ ∀ c ∈ w, c.isWhitespace = false) :
    pyStrip (joinSep [' '] ws) = joinSep [' '] ws := by
  cases ws with
  | nil => simp [joinSep, pyStrip]
  | cons w rest =>
    obtain ⟨c, cs, he, hc⟩ := joinSep_head (w :: rest) h (by simp)
    obtain ⟨c2, cs2, he2, hc2⟩ := joinSep_rev_head (w :: rest) h (by simp)
    exact pyStrip_eq_self
      (dropWhile_ws_eq_self (Or.inr ⟨c, cs, he, hc⟩))
      (dropWhile_ws_eq_self (Or.inr ⟨c2, cs2, he2, hc2⟩))

theorem sanitize_eq_joinSep {x : PyStr} (hx : ∀ c ∈ x, c ∉ dangerous_chars) :
    sanitize_query x = joinSep [' '] (pyWords x) := by
  have hws : ∀ w ∈ pyWords x, w ≠ [] ∧ ∀ c ∈ w, c.isWhitespace = false := by
    intro w hw
    obtain ⟨h1, h2⟩ := pyWordsGo_sound x [] (by simp) w hw
    exact ⟨h1, fun c hc => (h2 c hc).1⟩
  have hchars : ∀ w ∈ pyWords x, ∀ c ∈ w, c ∈ x := by
    intro w hw c hc
    obtain ⟨_, h2⟩ := pyWordsGo_sound x [] (by simp) w hw
    rcases (h2 c hc).2 with hin | hin
    · exact hin
    · simp at hin
  have hclean : ∀ c ∈ joinSep [' '] (pyWords x), c ∉ dangerous_chars := by
    intro c hc
    rcases joinSep_chars (pyWords x) c hc with rfl | ⟨w, hw, hcw⟩
    · decide
    · exact hx c (hchars w hw c hcw)
  show pyStrip (dangerous_chars.foldl (fun s c => removeChar c s)
    (joinSep [' '] (pyWords x))) = joinSep [' '] (pyWords x)
  rw [removeDangerous_eq_self hclean, pyStrip_joinSep _ hws]

/-- C8, counterexample: sanitization is not idempotent. In the source the
whitespace collapse runs before the character removals, so deleting a
dangerous character that sits between two spaces leaves a double space that a
second sanitization pass collapses. -/
theorem c8_counterexample :
    sanitize_query (sanitize_query (("a < b").data)) ≠
      sanitize_query (("a < b").data) := by decide

/-- C8, amended: `sanitize_query` is idempotent on every input containing
none of the four removed characters `<`, `>`, brace and closing brace. -/
theorem c8_sanitize_idempotent_amended (x : PyStr)
    (hx : ∀ c ∈ x, c ∉ dangerous_chars) :
    sanitize_query (sanitize_query x) = sanitize_query x := by
  have hws : ∀ w ∈ pyWords x, w ≠ [] ∧ ∀ c ∈ w, c.isWhitespace = false := by
    intro w hw
    obtain ⟨h1, h2⟩ := pyWordsGo_sound x [] (by simp) w hw
    exact ⟨h1, fun c hc => (h2 c hc).1⟩
  have hchars : ∀ w ∈ pyWords x, ∀ c ∈ w, c ∈ x := by
    intro w hw c hc
    obtain ⟨_, h2⟩ := pyWordsGo_sound x [] (by simp) w hw
    rcases (h2 c hc).2 with hin | hin
    · exact hin
    · simp at hin
  have hJclean : ∀ c ∈ joinSep [' '] (pyWords x), c ∉ dangerous_chars := by
    intro c hc
    rcases joinSep_chars (pyWords x) c hc with rfl | ⟨w, hw, hcw⟩
    · decide
    · exact hx c (hchars w hw c hcw)
  rw [sanitize_eq_joinSep hx, sanitize_eq_joinSep hJclean, pyWords_joinSep _ hws]

/-- Witness for the amended C8 at a concrete clean input. -/
theorem c8_witness :
    (∀ c ∈ (("  What   is an IEP?  ").data), c ∉ dangerous_chars) ∧
    sanitize_query (sanitize_query (("  What   is an IEP?  ").data)) =
      sanitize_query (("  What   is an IEP?  ").data) :=
  ⟨by decide, c8_sanitize_idempotent_amended (("  What   is an IEP?  ").data) (by decide)⟩

/-! ## Path lemmas for process_query (shared by the pipeline claims) -/

theorem process_query_invalid (svc : Services) (query : PyStr)
    (sid : Option PyStr) (view : ViewType)
    (hv : (validate_query query).1 = false) :
    process_query svc query sid view = validationFailureDict (validate_query query).2 := by
  simp only [process_query, processQueryTry]
  rw [if_pos hv]

theorem process_query_error (svc : Services) (query : PyStr)
    (sid : Option PyStr) (view : ViewType) (e : PyStr)
    (he : processQueryTry svc query view = Except.error e) :
    process_query svc query sid view = exceptionDict e := by
  simp only [process_query, he]

theorem processQueryTry_success (svc : Services) (query : PyStr) (view : ViewType)
    {crisis : Bool} {sev : PyStr} {kws : List PyStr} {rs : List RetrievalResult}
    {ctx r0 r1 rfinal : PyStr} {cits : List Citation} {res : List Resource}
    (hv : (validate_query query).1 = true)
    (h1 : svc.detectCrisis (sanitize_query query) = Except.ok (crisis, sev, kws))
    (h6 : (if crisis then svc.formatCrisisResponse sev r1 else Except.ok r1) =
      Except.ok rfinal)
    (h8 : (if crisis then svc.getCrisisResources else Except.ok []) = Except.ok res)
    (h2 : svc.retrieveSimilarChunks (sanitize_query query) = Except.ok rs)
    (h3 : svc.formatContextForLLM rs = Except.ok ctx)
    (h4 : svc.generateResponse (sanitize_query query) ctx view = Except.ok r0)
    (h5 : svc.addDisclaimers r0 (sanitize_query query) = Except.ok r1)
    (h7 : svc.extractCitations rs = Except.ok cits) :
    processQueryTry svc query view =
      Except.ok (successDict rfinal cits crisis sev res) := by
  have hvneg : ¬ ((validate_query query).1 = false) := by simp [hv]
  simp only [processQueryTry]
  rw [if_neg hvneg, h1]
  simp only [h2, h3, h4, h5, h6, h7, h8]

theorem process_query_success (svc : Services) (query : PyStr)
    (sid : Option PyStr) (view : ViewType)
    {crisis : Bool} {sev : PyStr} {kws : List PyStr} {rs : List RetrievalResult}
    {ctx r0 r1 rfinal : PyStr} {cits : List Citation} {res : List Resource}
    (hv : (validate_query query).1 = true)
    (h1 : svc.detectCrisis (sanitize_query query) = Except.ok (crisis, sev, kws))
    (h6 : (if crisis then svc.formatCrisisResponse sev r1 else Except.ok r1) =
      Except.ok rfinal)
    (h8 : (if crisis then svc.getCrisisResources else Except.ok []) = Except.ok res)
    (h2 : svc.retrieveSimilarChunks (sanitize_query query) = Except.ok rs)
    (h3 : svc.formatContextForLLM rs = Except.ok ctx)
    (h4 : svc.generateResponse (sanitize_query query) ctx view = Except.ok r0)
    (h5 : svc.addDisclaimers r0 (sanitize_query query) = Except.ok r1)
    (h7 : svc.extractCitations rs = Except.ok cits) :
    process_query svc query sid view = successDict rfinal cits crisis sev res := by
  simp only [process_query,
    processQueryTry_success svc query view hv h1 h6 h8 h2 h3 h4 h5 h7]

theorem processQueryTry_ok_shape (svc : Services) (query : PyStr) (view : ViewType)
    (d : Dict) (h : processQueryTry svc query view = Except.ok d) :
    ((validate_query query).1 = false ∧
      d = validationFailureDict (validate_query query).2) ∨
    ((validate_query query).1 = true ∧
      ∃ resp cits crisis sev res, d = successDict resp cits crisis sev res ∧
        (crisis = false → res = [])) := by
  by_cases hv : (validate_query query).1 = false
  · left
    refine ⟨hv, ?_⟩
    simp only [processQueryTry] at h
    rw [if_pos hv] at h
    simpa using h.symm
  · right
    have hv2 : (validate_query query).1 = true := by
      cases hb : (validate_query query).1
      · exact absurd hb hv
      · rfl
    refine ⟨hv2, ?_⟩
    simp only [processQueryTry] at h
    rw [if_neg hv] at h
    rcases h1 : svc.detectCrisis (sanitize_query query) with e | trip
    · rw [h1] at h; simp at h
    · obtain ⟨crisis, sev, kws⟩ := trip
      rw [h1] at h
      simp only [] at h
      rcases h2 : svc.retrieveSimilarChunks (sanitize_query query) with e | rs
      · rw [h2] at h; simp at h
      · rw [h2] at h
        simp only [] at h
        rcases h3 : svc.formatContextForLLM rs with e | ctx
        · rw [h3] at h; simp at h
        · rw [h3] at h
          simp only [] at h
          rcases h4 : svc.generateResponse (sanitize_query query) ctx view with e | r0
          · rw [h4] at h; simp at h
          · rw [h4] at h
            simp only [] at h
            rcases h5 : svc.addDisclaimers r0 (sanitize_query query) with e | r1
            · rw [h5] at h; simp at h
            · rw [h5] at h
              simp only [] at h
              cases hc : crisis with
              | false =>
                rw [hc] at h
                simp only [Bool.false_eq_true, if_false] at h
                rcases h7 : svc.extractCitations rs with e | cits
                · rw [h7] at h; simp at h
                · rw [h7] at h
                  simp only [] at h
                  refine ⟨r1, cits, false, sev, [], ?_, fun _ => rfl⟩
                  simpa using h.symm
              | true =>
                rw [hc] at h
                simp only [if_true] at h
                rcases h6 : svc.formatCrisisResponse sev r1 with e | rfinal
                · rw [h6] at h; simp at h
                · rw [h6] at h
                  simp only [] at h
                  rcases h7 : svc.extractCitations rs with e | cits
                  · rw [h7] at h; simp at h
                  · rw [h7] at h
                    simp only [] at h
                    rcases h8 : svc.getCrisisResources with e | res
                    · rw [h8] at h; simp at h
                    · rw [h8] at h
                      simp only [] at h
                      refine ⟨rfinal, cits, true, sev, res, ?_, by simp⟩
                      simpa using h.symm

/-! ## Claim C1: process_query never throws and falls back with contacts -/

/-- C1: for every injected services record, query, session id and view type,
`process_query` is a total function into result dictionaries that always carry
the response, citations, crisis_detected and error keys; the fallback message
contains an apology and the contact number; and whenever the try block raises,
the returned dictionary has error=true and the fallback message as response. -/
theorem c1_process_query_total_fallback (svc : Services) (query : PyStr)
    (sid : Option PyStr) (view : ViewType) :
    (("response") ∈ (process_query svc query sid view).map Prod.fst ∧
     ("citations") ∈ (process_query svc query sid view).map Prod.fst ∧
     ("crisis_detected") ∈ (process_query svc query sid view).map Prod.fst ∧
     ("error") ∈ (process_query svc query sid view).map Prod.fst) ∧
    (("I apologize").data <:+: FALLBACK_RESPONSE ∧
     ("1-800-442-2762").data <:+: FALLBACK_RESPONSE) ∧
    (∀ e, processQueryTry svc query view = Except.error e →
      List.lookup ("error") (process_query svc query sid view) =
        some (Value.vBool true) ∧
      List.lookup ("response") (process_query svc query sid view) =
        some (Value.vStr FALLBACK_RESPONSE)) := by
  refine ⟨?_, ⟨by decide, by decide⟩, ?_⟩
  · cases htry : processQueryTry svc query view with
    | error e =>
      rw [process_query_error svc query sid view e htry]
      exact ⟨by simp [exceptionDict], by simp [exceptionDict],
        by simp [exceptionDict], by simp [exceptionDict]⟩
    | ok d =>
      have hpq : process_query svc query sid view = d := by
        simp [process_query, htry]
      rcases processQueryTry_ok_shape svc query view d htry with
        ⟨_, rfl⟩ | ⟨_, resp, cits, crisis, sev, res, rfl, _⟩
      · rw [hpq]
        exact ⟨by simp [validationFailureDict], by simp [validationFailureDict],
          by simp [validationFailureDict], by simp [validationFailureDict]⟩
      · rw [hpq]
        exact ⟨by simp [successDict], by simp [successDict],
          by simp [successDict], by simp [successDict]⟩
  · intro e he
    rw [process_query_error svc query sid view e he]
    exact ⟨rfl, rfl⟩

/-- Witness for C1 at concrete services whose retrieval stage raises. -/
theorem c1_witness :
    List.lookup ("error")
      (process_query svcFail (("What is an IEP?").data) none ViewType.patient) =
      some (Value.vBool true) ∧
    List.lookup ("response")
      (process_query svcFail (("What is an IEP?").data) none ViewType.patient) =
      some (Value.vStr FALLBACK_RESPONSE) :=
  (c1_process_query_total_fallback svcFail (("What is an IEP?").data) none
    ViewType.patient).2.2 (("retrieval backend down").data) rfl

/-! ## Claim C3: crisis signaling versus downstream failures -/

/-- C3, counterexample: a crisis query whose retrieval stage raises reaches
the outer handler, whose fallback dictionary reports crisis_detected=false, so
crisis signaling is lost on a downstream exception. -/
theorem c3_counterexample :
    (detect_crisis (sanitize_query (("I want to kill myself").data))).1 = true ∧
    List.lookup ("crisis_detected")
      (process_query svcFail (("I want to kill myself").data) none ViewType.patient) =
      some (Value.vBool false) := ⟨rfl, rfl⟩

/-- C3, amended: for a valid query classified as a crisis, if every stage
after crisis detection returns without raising (the graceful behaviour of the
concrete services of the repository), the result carries
crisis_detected=true, the detected severity and the crisis resources list; a
stage that raises instead reaches the outer handler, which reports no crisis
(see the counterexample). -/
theorem c3_crisis_signal_amended (st : DownstreamStubs) (query : PyStr)
    (sid : Option PyStr) (view : ViewType) (sev : PyStr) (kws : List PyStr)
    {rs : List RetrievalResult} {ctx r0 r1 : PyStr} {cits : List Citation}
    (hv : (validate_query query).1 = true)
    (hd : detect_crisis (sanitize_query query) = (true, sev, kws))
    (h2 : st.retrieve (sanitize_query query) = Except.ok rs)
    (h3 : st.formatCtx rs = Except.ok ctx)
    (h4 : st.generate (sanitize_query query) ctx view = Except.ok r0)
    (h5 : st.disclaim r0 (sanitize_query query) = Except.ok r1)
    (h7 : st.cites rs = Except.ok cits) :
    List.lookup ("crisis_detected")
      (process_query (mkKeywordServices st) query sid view) =
      some (Value.vBool true) ∧
    List.lookup ("crisis_severity")
      (process_query (mkKeywordServices st) query sid view) =
      some (Value.vOptStr (some sev)) ∧
    List.lookup ("crisis_resources")
      (process_query (mkKeywordServices st) query sid view) =
      some (Value.vResources get_crisis_resources) := by
  have h1 : (mkKeywordServices st).detectCrisis (sanitize_query query) =
      Except.ok (true, sev, kws) := by simp [mkKeywordServices, hd]
  have h6 : (if true then (mkKeywordServices st).formatCrisisResponse sev r1
      else Except.ok r1) = Except.ok (format_crisis_response sev (some r1)) := by
    simp [mkKeywordServices]
  have h8 : (if true then (mkKeywordServices st).getCrisisResources
      else Except.ok []) = Except.ok get_crisis_resources := by
    simp [mkKeywordServices]
  rw [process_query_success (mkKeywordServices st) query sid view hv h1 h6 h8
    h2 h3 h4 h5 h7]
  exact ⟨rfl, rfl, rfl⟩

/-- Witness for the amended C3 at a concrete crisis query with graceful
services. -/
theorem c3_witness :
    List.lookup ("crisis_detected")
      (process_query svcOk (("I want to kill myself").data) none ViewType.patient) =
      some (Value.vBool true) ∧
    List.lookup ("crisis_severity")
      (process_query svcOk (("I want to kill myself").data) none ViewType.patient) =
      some (Value.vOptStr (some (("critical").data))) ∧
    List.lookup ("crisis_resources")
      (process_query svcOk (("I want to kill myself").data) none ViewType.patient) =
      some (Value.vResources get_crisis_resources) :=
  c3_crisis_signal_amended okStubs (("I want to kill myself").data) none
    ViewType.patient (("critical").data) [("kill myself").data]
    (by decide) (by decide) rfl rfl rfl rfl rfl

/-! ## Claim C5: crisis block is prepended, not substituted -/

/-- C5: on the success path of a crisis query, the response equals the fixed
crisis boilerplate followed by a tail, and the disclaimed generated answer is
a suffix of that tail: the answer is preserved below the prepended block. -/
theorem c5_crisis_block_prepended (st : DownstreamStubs) (query : PyStr)
    (sid : Option PyStr) (view : ViewType) (sev : PyStr) (kws : List PyStr)
    {rs : List RetrievalResult} {ctx r0 r1 : PyStr} {cits : List Citation}
    (hv : (validate_query query).1 = true)
    (hd : detect_crisis (sanitize_query query) = (true, sev, kws))
    (h2 : st.retrieve (sanitize_query query) = Except.ok rs)
    (h3 : st.formatCtx rs = Except.ok ctx)
    (h4 : st.generate (sanitize_query query) ctx view = Except.ok r0)
    (h5 : st.disclaim r0 (sanitize_query query) = Except.ok r1)
    (h7 : st.cites rs = Except.ok cits) :
    ∃ t, List.lookup ("response")
        (process_query (mkKeywordServices st) query sid view) =
        some (Value.vStr (CRISIS_MESSAGE ++ t)) ∧ r1 <:+ t := by
  have h1 : (mkKeywordServices st).detectCrisis (sanitize_query query) =
      Except.ok (true, sev, kws) := by simp [mkKeywordServices, hd]
  have h6 : (if true then (mkKeywordServices st).formatCrisisResponse sev r1
      else Except.ok r1) = Except.ok (format_crisis_response sev (some r1)) := by
    simp [mkKeywordServices]
  have h8 : (if true then (mkKeywordServices st).getCrisisResources
      else Except.ok []) = Except.ok get_crisis_resources := by
    simp [mkKeywordServices]
  rw [process_query_success (mkKeywordServices st) query sid view hv h1 h6 h8
    h2 h3 h4 h5 h7]
  refine ⟨(if r1 ≠ [] then ('\n') :: r1 else []), rfl, ?_⟩
  by_cases hr : r1 = []
  · simp [hr]
  · simp only [hr, ne_eq, not_false_eq_true, if_true]
    exact List.suffix_cons _ _

/-- Witness for C5 at a concrete crisis query with graceful services. -/
theorem c5_witness :
    ∃ t, List.lookup ("response")
        (process_query svcOk (("I want to kill myself").data) none ViewType.patient) =
        some (Value.vStr (CRISIS_MESSAGE ++ t)) ∧ (("The answer.").data) <:+ t :=
  c5_crisis_block_prepended okStubs (("I want to kill myself").data) none
    ViewType.patient (("critical").data) [("kill myself").data]
    (by decide) (by decide) rfl rfl rfl rfl rfl

/-! ## Claim C10: result dictionary key sets per outcome path -/

/-- C10: the key set of the result dictionary depends on the outcome path:
validation failure yields exactly response, citations, crisis_detected and
error; an unexpected-exception fallback adds exactly error_message; only the
success path carries crisis_severity and crisis_resources, and these hold
None and the empty list when no crisis was detected. -/
theorem c10_result_key_sets (svc : Services) (query : PyStr)
    (sid : Option PyStr) (view : ViewType) :
    ((validate_query query).1 = false →
      (process_query svc query sid view).map Prod.fst =
        [("response"), ("citations"), ("crisis_detected"), ("error")]) ∧
    (∀ e, processQueryTry svc query view = Except.error e →
      (process_query svc query sid view).map Prod.fst =
        [("response"), ("citations"), ("crisis_detected"), ("error"),
         ("error_message")]) ∧
    (∀ d, processQueryTry svc query view = Except.ok d →
      (validate_query query).1 = true →
      (process_query svc query sid view).map Prod.fst =
        [("response"), ("citations"), ("crisis_detected"), ("crisis_severity"),
         ("crisis_resources"), ("error")] ∧
      (List.lookup ("crisis_detected") (process_query svc query sid view) =
          some (Value.vBool false) →
        List.lookup ("crisis_severity") (process_query svc query sid view) =
          some (Value.vOptStr none) ∧
        List.lookup ("crisis_resources") (process_query svc query sid view) =
          some (Value.vResources []))) := by
  refine ⟨?_, ?_, ?_⟩
  · intro hv
    rw [process_query_invalid svc query sid view hv]
    rfl
  · intro e he
    rw [process_query_error svc query sid view e he]
    rfl
  · intro d htry hv
    have hpq : process_query svc query sid view = d := by
      simp [process_query, htry]
    rcases processQueryTry_ok_shape svc query view d htry with
      ⟨hv2, _⟩ | ⟨_, resp, cits, crisis, sev, res, rfl, hres⟩
    · rw [hv] at hv2
      simp at hv2
    · rw [hpq]
      refine ⟨rfl, ?_⟩
      intro hcd
      have hlook : List.lookup ("crisis_detected")
          (successDict resp cits crisis sev res) = some (Value.vBool crisis) := rfl
      rw [hlook] at hcd
      have hcf : crisis = false := by simpa using hcd
      subst hcf
      refine ⟨rfl, ?_⟩
      rw [hres rfl]
      rfl

/-- Witness for C10: all three paths at concrete inputs. -/
theorem c10_witness :
    ((process_query svcOk [] none ViewType.patient).map Prod.fst =
      [("response"), ("citations"), ("crisis_detected"), ("error")]) ∧
    ((process_query svcFail (("What is an IEP?").data) none
        ViewType.patient).map Prod.fst =
      [("response"), ("citations"), ("crisis_detected"), ("error"),
       ("error_message")]) ∧
    ((process_query svcOk (("What is an IEP?").data) none
        ViewType.patient).map Prod.fst =
      [("response"), ("citations"), ("crisis_detected"), ("crisis_severity"),
       ("crisis_resources"), ("error")]) ∧
    (List.lookup ("crisis_severity")
        (process_query svcOk (("What is an IEP?").data) none ViewType.patient) =
      some (Value.vOptStr none)) := by
  refine ⟨(c10_result_key_sets svcOk [] none ViewType.patient).1 (by decide),
    (c10_result_key_sets svcFail (("What is an IEP?").data) none
      ViewType.patient).2.1 (("retrieval backend down").data) rfl, ?_, ?_⟩
  · exact ((c10_result_key_sets svcOk (("What is an IEP?").data) none
      ViewType.patient).2.2 _ rfl (by decide)).1
  · exact (((c10_result_key_sets svcOk (("What is an IEP?").data) none
      ViewType.patient).2.2 _ rfl (by decide)).2 rfl).1

/-! ## Claim C2: context formatting budget -/

theorem contextParts_total_bound (mc : Nat) :
    ∀ (l : List RetrievalResult) (i total : Nat),
      total + ((contextParts mc i total l).map List.length).sum ≤ max mc total := by
  intro l
  induction l with
  | nil =>
    intro i total
    simp only [contextParts, List.map_nil, List.sum_nil, Nat.add_zero]
    exact Nat.le_max_right mc total
  | cons r rest ih =>
    intro i total
    simp only [contextParts]
    by_cases hb : mc < total + (formattedChunk i r).length
    · rw [if_pos hb]
      simp only [List.map_nil, List.sum_nil, Nat.add_zero]
      exact Nat.le_max_right mc total
    · rw [if_neg hb]
      push_neg at hb
      have h2 := ih (i + 1) (total + (formattedChunk i r).length)
      rw [Nat.max_eq_left hb] at h2
      have h3 : mc ≤ max mc total := Nat.le_max_left mc total
      simp only [List.map_cons, List.sum_cons]
      omega

theorem joinSep_length_le (sep : PyStr) :
    ∀ parts : List PyStr,
      (joinSep sep parts).length ≤
        (parts.map List.length).sum + sep.length * (parts.length - 1) := by
  intro parts
  induction parts with
  | nil => simp [joinSep]
  | cons x xs ih =>
    cases xs with
    | nil => simp [joinSep]
    | cons y ys =>
      simp only [joinSep, List.length_append, List.map_cons, List.sum_cons,
        List.length_cons] at ih ⊢
      have hm : sep.length * (ys.length + 1 + 1 - 1) =
          sep.length * (ys.length + 1 - 1) + sep.length := by
        simp [Nat.mul_succ]
      omega

theorem contextParts_length_le (mc : Nat) :
    ∀ (l : List RetrievalResult) (i total : Nat),
      (contextParts mc i total l).length ≤ l.length := by
  intro l
  induction l with
  | nil => intro i total; simp [contextParts]
  | cons r rest ih =>
    intro i total
    simp only [contextParts]
    by_cases hb : mc < total + (formattedChunk i r).length
    · rw [if_pos hb]; simp
    · rw [if_neg hb]
      simpa using Nat.succ_le_succ (ih (i + 1) (total + (formattedChunk i r).length))

/-- C2, counterexample: with two short chunks and an 8-token budget, both
rendered chunks fit the 32-character budget counted by the loop, but the
separator added by the join pushes the final string to 35 characters, beyond
max_tokens * 4. -/
theorem c2_counterexample :
    ¬ ((format_context_for_llm
        [{ chunk_id := 1, chunk_text := [], document_id := 1, similarity_score := 0,
           metadata := [], document_title := some (("A").data), source_url := none },
         { chunk_id := 2, chunk_text := [], document_id := 2, similarity_score := 0,
           metadata := [], document_title := some (("B").data), source_url := none }]
        8).length ≤ 8 * 4) := by decide

/-- C2, amended: the loop keeps the total length of the included chunk
renderings within max_tokens * 4, but the separators of the final join are
not counted, so the returned string length is only bounded by
max_tokens * 4 plus 5 characters per separator; the empty input still yields
the empty string. -/
theorem c2_context_budget_amended (results : List RetrievalResult) (max_tokens : Nat) :
    (format_context_for_llm results max_tokens).length ≤
      max_tokens * 4 + 5 * (results.length - 1) ∧
    format_context_for_llm [] max_tokens = [] := by
  constructor
  · by_cases hr : results = []
    · subst hr; simp [format_context_for_llm]
    · simp only [format_context_for_llm, if_neg hr]
      have h1 := joinSep_length_le (['\n', '-', '-', '-', '\n'])
        (contextParts (max_tokens * 4) 1 0 results)
      have h2 := contextParts_total_bound (max_tokens * 4) results 1 0
      have h3 := contextParts_length_le (max_tokens * 4) results 1 0
      have hsep : ([('\n'), '-', '-', '-', '\n'] : PyStr).length = 5 := rfl
      rw [hsep] at h1
      rw [Nat.max_eq_left (Nat.zero_le _)] at h2
      have h4 : 5 * ((contextParts (max_tokens * 4) 1 0 results).length - 1) ≤
          5 * (results.length - 1) := by
        apply Nat.mul_le_mul_left
        omega
      omega
  · simp [format_context_for_llm]

/-! ## Claim C7: chunk id assignment across store and clear operations -/

theorem range1_bounds : ∀ (n s m : Nat), m ∈ List.range' s n → s ≤ m ∧ m < s + n := by
  intro n
  induction n with
  | zero => intro s m hm; simp [List.range'] at hm
  | succ k ih =>
    intro s m hm
    simp only [List.range'] at hm
    rcases List.mem_cons.mp hm with rfl | hm
    · omega
    · have := ih (s + 1) m hm
      omega

theorem store_document_chunks_spec : ∀ (cs : List ChunkPayload) (s : VSState),
    (store_document_chunks s cs).1 = List.range' s.next_id cs.length ∧
    (store_document_chunks s cs).2.next_id = s.next_id + cs.length := by
  intro cs
  induction cs with
  | nil => intro s; simp [store_document_chunks, List.range']
  | cons c rest ih =>
    intro s
    simp only [store_document_chunks, List.length_cons, List.range']
    constructor
    · rw [(ih _).1]
    · rw [(ih _).2]
      simp
      omega

theorem runVSOps_ids_lb : ∀ (ops : List VSOp) (s : VSState),
    (∀ op ∈ ops, VSOp.isClear op = false) →
    ∀ ids ∈ (runVSOps s ops).1, ∀ i ∈ ids, s.next_id ≤ i := by
  intro ops
  induction ops with
  | nil => intro s _ ids hids; simp [runVSOps] at hids
  | cons op rest ih =>
    intro s hnc ids hids
    cases op with
    | clearOp => exact absurd (hnc _ (List.mem_cons_self _ _)) (by simp [VSOp.isClear])
    | storeOp cs =>
      simp only [runVSOps] at hids
      rcases List.mem_cons.mp hids with rfl | hids
      · intro i hi
        rw [(store_document_chunks_spec cs s).1] at hi
        exact (range1_bounds cs.length s.next_id i hi).1
      · intro i hi
        have hnext := (store_document_chunks_spec cs s).2
        have h := ih (store_document_chunks s cs).2
          (fun op h0 => hnc op (List.mem_cons_of_mem _ h0)) ids hids i hi
        omega

/-- C7, counterexample: `clear` resets the id counter to 1, so a store call
after a clear reuses the ids of a store call before it — the two id lists
are equal, not disjoint. -/
theorem c7_counterexample :
    (runVSOps initVSState
      [VSOp.storeOp [samplePayload], VSOp.clearOp,
       VSOp.storeOp [samplePayload]]).1 = [[1], [1]] ∧
    ¬ ((runVSOps initVSState
      [VSOp.storeOp [samplePayload], VSOp.clearOp,
       VSOp.storeOp [samplePayload]]).1.Pairwise
        (fun ids1 ids2 => ∀ i ∈ ids1, i ∉ ids2)) := by
  constructor
  · rfl
  · intro h
    have e : (runVSOps initVSState
      [VSOp.storeOp [samplePayload], VSOp.clearOp,
       VSOp.storeOp [samplePayload]]).1 = [[1], [1]] := rfl
    rw [e] at h
    exact absurd h (by decide)

/-- C7, amended: each store call returns the consecutive block of ids starting
at the current counter and advances the counter past it; consequently, over
any sequence of store operations with no intervening clear, the id lists of
distinct store calls are strictly increasing blocks, hence disjoint. A clear
resets the counter to 1 and ids are then reused (see the counterexample). -/
theorem c7_ids_amended :
    (∀ (s : VSState) (cs : List ChunkPayload),
      (store_document_chunks s cs).1 = List.range' s.next_id cs.length ∧
      (store_document_chunks s cs).2.next_id = s.next_id + cs.length) ∧
    (∀ (s : VSState) (ops : List VSOp), (∀ op ∈ ops, VSOp.isClear op = false) →
      (runVSOps s ops).1.Pairwise
        (fun ids1 ids2 => ∀ i ∈ ids1, ∀ j ∈ ids2, i < j)) := by
  constructor
  · intro s cs; exact store_document_chunks_spec cs s
  · intro s ops
    induction ops generalizing s with
    | nil => intro _; simp [runVSOps]
    | cons op rest ih =>
      intro hnc
      cases op with
      | clearOp => exact absurd (hnc _ (List.mem_cons_self _ _)) (by simp [VSOp.isClear])
      | storeOp cs =>
        simp only [runVSOps]
        refine List.Pairwise.cons ?_ (ih _ (fun op h0 => hnc op (List.mem_cons_of_mem _ h0)))
        intro ids2 hids2 i hi j hj
        have hub : i < s.next_id + cs.length := by
          rw [(store_document_chunks_spec cs s).1] at hi
          exact (range1_bounds cs.length s.next_id i hi).2
        have hlb := runVSOps_ids_lb rest (store_document_chunks s cs).2
          (fun op h0 => hnc op (List.mem_cons_of_mem _ h0)) ids2 hids2 j hj
        have hnext := (store_document_chunks_spec cs s).2
        omega

/-- Witness for the amended C7: two consecutive store calls with no clear. -/
theorem c7_witness :
    (runVSOps initVSState
      [VSOp.storeOp [samplePayload, samplePayload],
       VSOp.storeOp [samplePayload]]).1.Pairwise
      (fun ids1 ids2 => ∀ i ∈ ids1, ∀ j ∈ ids2, i < j) :=
  c7_ids_amended.2 initVSState
    [VSOp.storeOp [samplePayload, samplePayload], VSOp.storeOp [samplePayload]]
    (by intro op h0; rcases List.mem_cons.mp h0 with rfl | h0
        · rfl
        · rcases List.mem_cons.mp h0 with rfl | h0
          · rfl
          · simp at h0)

/-! ## Claim C6: search_similar ordering, threshold, and stability -/

instance simDesc_total : IsTotal (StoredChunk × ℝ) simDesc :=
  ⟨fun a b => le_total b.2 a.2⟩

instance simDesc_trans : IsTrans (StoredChunk × ℝ) simDesc :=
  ⟨fun _ _ _ h1 h2 => le_trans h2 h1⟩

theorem pairwise_orderedInsert_of {α : Type} (r : α → α → Prop) [DecidableRel r]
    [IsTrans α r] (P : α → α → Prop) (a : α) :
    ∀ (l : List α), l.Pairwise r → l.Pairwise P →
      (∀ b ∈ l, (r a b → P a b) ∧ (¬ r a b → P b a)) →
      (List.orderedInsert r a l).Pairwise P := by
  intro l
  induction l with
  | nil => intro _ _ _; simp
  | cons b l ih =>
    intro hr hP h2
    simp only [List.orderedInsert]
    by_cases hab : r a b
    · rw [if_pos hab]
      refine List.Pairwise.cons ?_ hP
      intro x hx
      rcases List.mem_cons.mp hx with hxb | hx
      · rw [hxb]
        exact (h2 b (List.mem_cons_self b l)).1 hab
      · have hbx : r b x := (List.pairwise_cons.mp hr).1 x hx
        have hax : r a x := trans_of r hab hbx
        exact (h2 x (List.mem_cons_of_mem b hx)).1 hax
    · rw [if_neg hab]
      refine List.Pairwise.cons ?_
        (ih hr.of_cons hP.of_cons (fun x hx => h2 x (List.mem_cons_of_mem b hx)))
      intro x hx
      rcases (List.mem_orderedInsert r).mp hx with hxa | hx
      · rw [hxa]
        exact (h2 b (List.mem_cons_self b l)).2 hab
      · exact (List.pairwise_cons.mp hP).1 x hx

theorem pairwise_insertionSort_of {α : Type} (r : α → α → Prop) [DecidableRel r]
    [IsTotal α r] [IsTrans α r] (P : α → α → Prop) :
    ∀ (l : List α),
      l.Pairwise (fun a b => (r a b → P a b) ∧ (¬ r a b → P b a)) →
      (List.insertionSort r l).Pairwise P := by
  intro l
  induction l with
  | nil => intro _; simp
  | cons a l ih =>
    intro h
    simp only [List.insertionSort]
    apply pairwise_orderedInsert_of r P a
    · exact List.sorted_insertionSort r l
    · exact ih h.of_cons
    · intro b hb
      exact (List.pairwise_cons.mp h).1 b ((List.mem_insertionSort r).mp hb)

theorem pairwise_pair_sublist_map {α β : Type} (f : α → β) :
    ∀ l : List α, l.Pairwise (fun a b => List.Sublist [f a, f b] (l.map f)) := by
  intro l
  induction l with
  | nil => simp
  | cons x xs ih =>
    refine List.Pairwise.cons ?_ (ih.imp ?_)
    · intro b hb
      exact (List.singleton_sublist.mpr (List.mem_map_of_mem f hb)).cons₂ (f x)
    · intro a b hab
      exact hab.cons (f x)

theorem pairwise_filterMap_of {α β : Type} (f : α → Option β) (P : α → α → Prop)
    (P2 : β → β → Prop)
    (hcomp : ∀ a b x y, P a b → f a = some x → f b = some y → P2 x y) :
    ∀ l : List α, l.Pairwise P → (l.filterMap f).Pairwise P2 := by
  intro l
  induction l with
  | nil => intro _; simp
  | cons a l ih =>
    intro h
    cases hfa : f a with
    | none =>
      rw [List.filterMap_cons_none hfa]
      exact ih h.of_cons
    | some x =>
      rw [List.filterMap_cons_some hfa]
      refine List.Pairwise.cons ?_ (ih h.of_cons)
      intro y hy
      obtain ⟨b, hb, hfb⟩ := List.mem_filterMap.mp hy
      exact hcomp a b x y ((List.pairwise_cons.mp h).1 b hb) hfa hfb

theorem simCandidate_spec (q : List ℝ) (τ : ℝ) (c : StoredChunk)
    (p : StoredChunk × ℝ) (h : simCandidate q τ c = some p) :
    ∃ e, c.payload.embedding = some e ∧ vnorm q * vnorm e ≠ 0 ∧
      τ ≤ vdot q e / (vnorm q * vnorm e) ∧
      p = (c, vdot q e / (vnorm q * vnorm e)) := by
  unfold simCandidate at h
  cases he : c.payload.embedding with
  | none => rw [he] at h; exact absurd h (by simp)
  | some e =>
    rw [he] at h
    simp only [] at h
    by_cases h0 : vnorm q * vnorm e = 0
    · rw [if_pos h0] at h; exact absurd h (by simp)
    · rw [if_neg h0] at h
      by_cases hτ : τ ≤ vdot q e / (vnorm q * vnorm e)
      · rw [if_pos hτ] at h
        refine ⟨e, rfl, h0, hτ, ?_⟩
        exact (Option.some.inj h).symm
      · rw [if_neg hτ] at h; exact absurd h (by simp)

theorem simCandidate_some (q : List ℝ) (τ : ℝ) (c : StoredChunk) (e : List ℝ)
    (he : c.payload.embedding = some e) (h0 : vnorm q * vnorm e ≠ 0)
    (hτ : τ ≤ vdot q e / (vnorm q * vnorm e)) :
    simCandidate q τ c = some (c, vdot q e / (vnorm q * vnorm e)) := by
  unfold simCandidate
  rw [he]
  simp only []
  rw [if_neg h0, if_pos hτ]

section
open Classical

/-- C6: the in-memory search returns at most top_k results, sorted by
similarity non-increasing with ties kept in original insertion order (Python
list.sort is stable), every returned result comes from a stored chunk with an
embedding whose norm product with the query is non-zero and whose cosine
similarity reaches the inclusive threshold, and such a qualifying chunk is
only ever missing when the result already holds top_k entries. -/
theorem c6_search_similar_spec (s : VSState) (q : List ℝ) (top_k : Nat) (τ : ℝ) :
    (search_similar s q top_k τ).length ≤ top_k ∧
    (search_similar s q top_k τ).Pairwise
      (fun r1 r2 => r2.similarity_score ≤ r1.similarity_score) ∧
    (search_similar s q top_k τ).Pairwise
      (fun r1 r2 => r1.similarity_score = r2.similarity_score →
        List.Sublist [r1.chunk_id, r2.chunk_id] (s.chunks.map StoredChunk.id)) ∧
    (∀ r ∈ search_similar s q top_k τ, ∃ c ∈ s.chunks, ∃ e,
      c.payload.embedding = some e ∧ vnorm q * vnorm e ≠ 0 ∧
      τ ≤ vdot q e / (vnorm q * vnorm e) ∧
      r = mkVSResult c (vdot q e / (vnorm q * vnorm e))) ∧
    (∀ c ∈ s.chunks, ∀ e, c.payload.embedding = some e →
      vnorm q * vnorm e ≠ 0 → τ ≤ vdot q e / (vnorm q * vnorm e) →
      (∃ r ∈ search_similar s q top_k τ,
        r = mkVSResult c (vdot q e / (vnorm q * vnorm e))) ∨
      (search_similar s q top_k τ).length = top_k) := by
  by_cases hch : s.chunks = []
  · refine ⟨?_, ?_, ?_, ?_, ?_⟩ <;>
      simp only [search_similar, if_pos hch]
    · simp
    · simp
    · simp
    · simp
    · intro c hc
      rw [hch] at hc
      simp at hc
  · have hsearch : search_similar s q top_k τ =
        ((List.insertionSort simDesc (simCandidates s.chunks q τ)).take top_k).map
          (fun p => mkVSResult p.1 p.2) := by
      rw [search_similar, if_neg hch]
    have hsorted : (List.insertionSort simDesc (simCandidates s.chunks q τ)).Pairwise
        simDesc := List.sorted_insertionSort simDesc (simCandidates s.chunks q τ)
    have htakeSub := List.take_sublist top_k
      (List.insertionSort simDesc (simCandidates s.chunks q τ))
    refine ⟨?_, ?_, ?_, ?_, ?_⟩
    · rw [hsearch, List.length_map]
      exact List.length_take_le top_k _
    · rw [hsearch]
      apply List.pairwise_map.mpr
      exact List.Pairwise.sublist htakeSub hsorted
    · have hin : (simCandidates s.chunks q τ).Pairwise
          (fun a b => List.Sublist [a.1.id, b.1.id] (s.chunks.map StoredChunk.id)) := by
        apply pairwise_filterMap_of (simCandidate q τ)
          (fun c d => List.Sublist [c.id, d.id] (s.chunks.map StoredChunk.id))
          _ ?_ s.chunks (pairwise_pair_sublist_map StoredChunk.id s.chunks)
        intro a b x y hP hfa hfb
        obtain ⟨e1, _, _, _, hx⟩ := simCandidate_spec q τ a x hfa
        obtain ⟨e2, _, _, _, hy⟩ := simCandidate_spec q τ b y hfb
        rw [hx, hy]
        exact hP
      have hstab : (List.insertionSort simDesc (simCandidates s.chunks q τ)).Pairwise
          (fun a b => a.2 = b.2 →
            List.Sublist [a.1.id, b.1.id] (s.chunks.map StoredChunk.id)) := by
        apply pairwise_insertionSort_of
        refine hin.imp ?_
        intro a b hab
        refine ⟨fun _ _ => hab, fun hn heq => ?_⟩
        exact absurd (le_of_eq heq) hn
      rw [hsearch]
      apply List.pairwise_map.mpr
      exact List.Pairwise.sublist htakeSub hstab
    · rw [hsearch]
      intro r hr
      obtain ⟨p, hpT, hpr⟩ := List.mem_map.mp hr
      have hpS := htakeSub.subset hpT
      have hpC := (List.mem_insertionSort simDesc).mp hpS
      obtain ⟨c, hc, hcand⟩ := List.mem_filterMap.mp hpC
      obtain ⟨e, he, h0, hτ2, hpe⟩ := simCandidate_spec q τ c p hcand
      refine ⟨c, hc, e, he, h0, hτ2, ?_⟩
      rw [← hpr, hpe]
    · intro c hc e he h0 hτ2
      have hcand := simCandidate_some q τ c e he h0 hτ2
      have hmemC : (c, vdot q e / (vnorm q * vnorm e)) ∈ simCandidates s.chunks q τ :=
        List.mem_filterMap.mpr ⟨c, hc, hcand⟩
      have hmemS : (c, vdot q e / (vnorm q * vnorm e)) ∈
          List.insertionSort simDesc (simCandidates s.chunks q τ) :=
        (List.mem_insertionSort simDesc).mpr hmemC
      by_cases hT : (c, vdot q e / (vnorm q * vnorm e)) ∈
          (List.insertionSort simDesc (simCandidates s.chunks q τ)).take top_k
      · left
        refine ⟨mkVSResult c (vdot q e / (vnorm q * vnorm e)), ?_, rfl⟩
        rw [hsearch]
        exact List.mem_map_of_mem _ hT
      · right
        have hlen : top_k <
            (List.insertionSort simDesc (simCandidates s.chunks q τ)).length := by
          by_contra hle
          push_neg at hle
          rw [List.take_of_length_le hle] at hT
          exact hT hmemS
        rw [hsearch, List.length_map, List.length_take]
        exact min_eq_left (le_of_lt hlen)

end

/-- Witness for C6: the completeness part applied to a one-chunk store with a
matching one-dimensional query. -/
theorem c6_witness :
    (∃ r ∈ search_similar sampleVSState [(1 : ℝ)] 1 0,
      r = mkVSResult sampleChunkR
        (vdot [(1 : ℝ)] [(1 : ℝ)] / (vnorm [(1 : ℝ)] * vnorm [(1 : ℝ)]))) ∨
    (search_similar sampleVSState [(1 : ℝ)] 1 0).length = 1 := by
  have h1 : vdot [(1 : ℝ)] [(1 : ℝ)] = 1 := by simp [vdot]
  have h2 : vnorm [(1 : ℝ)] = 1 := by rw [vnorm, h1]; exact Real.sqrt_one
  have h0 : vnorm [(1 : ℝ)] * vnorm [(1 : ℝ)] ≠ 0 := by rw [h2]; norm_num
  have hτ : (0 : ℝ) ≤ vdot [(1 : ℝ)] [(1 : ℝ)] / (vnorm [(1 : ℝ)] * vnorm [(1 : ℝ)]) := by
    rw [h1, h2]; norm_num
  have he : sampleChunkR.payload.embedding = some [(1 : ℝ)] := rfl
  exact (c6_search_similar_spec sampleVSState [(1 : ℝ)] 1 0).2.2.2.2 sampleChunkR
    (by simp [sampleVSState]) [(1 : ℝ)] he h0 hτ

end NCAsk
